import Mathlib

/-!
Verification of the `mu` soundboard core (`src/audio_manager.py`,
`src/soundboard.py`) against its specification.

The Python code is shallowly embedded: pure helpers become Lean functions,
the mutable `AudioManager` / `Soundboard` objects become explicit state
records, exceptions become `Except`, and the effects of the external
`sounddevice` / `soundfile` libraries are passed in as explicit outcome
parameters.  Python `dict`s are modelled as insertion-ordered association
lists with the exact `d[k] = v` update semantics (replace in place on an
existing key, append otherwise).
-/

namespace Mu

/-! ## Insertion-ordered dictionaries (Python `dict`) -/

section Dict

variable {α : Type} {β : Type} [DecidableEq α]

/-- `d.get(k)` / `d[k]` lookup on an insertion-ordered association list. -/
def dictGet? : List (α × β) → α → Option β
  | [], _ => none
  | p :: ps, k => if p.1 = k then some p.2 else dictGet? ps k

/-- `d[k] = v`: replace the value in place when the key is present,
append a fresh entry otherwise (CPython dict update semantics). -/
def dictInsert : List (α × β) → α → β → List (α × β)
  | [], k, v => [(k, v)]
  | p :: ps, k, v => if p.1 = k then (k, v) :: ps else p :: dictInsert ps k v

/-- `k in d`: key membership test. -/
def dictContains : List (α × β) → α → Bool
  | [], _ => false
  | p :: ps, k => if p.1 = k then true else dictContains ps k

/-- The value attached to the LAST entry of `pairs` whose key is `k`,
if any (later writes win). -/
def lastVal? : List (α × β) → α → Option β
  | [], _ => none
  | p :: ps, k =>
    match lastVal? ps k with
    | some v => some v
    | none => if p.1 = k then some p.2 else none

/-- Left-biased choice on `Option`. -/
def orO (a b : Option β) : Option β :=
  match a with
  | some v => some v
  | none => b

theorem dictGet_dictInsert (d : List (α × β)) (k : α) (v : β) (k' : α) :
    dictGet? (dictInsert d k v) k' = if k' = k then some v else dictGet? d k' := by
  induction d with
  | nil =>
    rcases eq_or_ne k' k with h | h
    · subst h; simp [dictInsert, dictGet?]
    · simp [dictInsert, dictGet?, h, Ne.symm h]
  | cons p ps ih =>
    rcases eq_or_ne p.1 k with hp | hp
    · rcases eq_or_ne k' k with hk | hk
      · subst hk; simp [dictInsert, dictGet?, hp]
      · simp [dictInsert, dictGet?, hp, hk, Ne.symm hk]
    · rcases eq_or_ne p.1 k' with hpk | hpk
      · have hk : k' ≠ k := fun hh => hp (hpk.trans hh)
        simp [dictInsert, dictGet?, hp, hpk, hk]
      · simp [dictInsert, dictGet?, hp, hpk, ih]

theorem dictContains_iff_isSome (d : List (α × β)) (k : α) :
    dictContains d k = (dictGet? d k).isSome := by
  induction d with
  | nil => rfl
  | cons p ps ih =>
    simp only [dictContains, dictGet?]
    by_cases hp : p.1 = k
    · rw [if_pos hp, if_pos hp]; rfl
    · rw [if_neg hp, if_neg hp, ih]

/-- Folding Python-dict insertions of `pairs` over `h`: a key reads back
the last value written for it in `pairs`, falling back to `h`. -/
theorem dictGet_foldl_insert (pairs : List (α × β)) (h : List (α × β)) (k : α) :
    dictGet? (pairs.foldl (fun d p => dictInsert d p.1 p.2) h) k =
      orO (lastVal? pairs k) (dictGet? h k) := by
  induction pairs generalizing h with
  | nil => rfl
  | cons p ps ih =>
    simp only [List.foldl_cons, lastVal?]
    rw [ih]
    cases hl : lastVal? ps k with
    | some v => simp [orO]
    | none =>
      simp only [orO]
      rw [dictGet_dictInsert]
      by_cases hp : p.1 = k
      · rw [if_pos hp, if_pos (hp.symm : k = p.1)]
      · rw [if_neg hp, if_neg (fun hh : k = p.1 => hp hh.symm)]

/-- A key present in `h` is still present after any sequence of insertions. -/
theorem dictGet_foldl_insert_isSome (pairs : List (α × β)) (h : List (α × β)) (k : α)
    (hk : (dictGet? h k).isSome) :
    (dictGet? (pairs.foldl (fun d p => dictInsert d p.1 p.2) h) k).isSome := by
  rw [dictGet_foldl_insert]
  cases hl : lastVal? pairs k with
  | some v => simp [orO]
  | none => simpa [orO] using hk

theorem lastVal_cons (p : α × β) (ps : List (α × β)) (k : α) :
    lastVal? (p :: ps) k =
      match lastVal? ps k with
      | some v => some v
      | none => if p.1 = k then some p.2 else none := rfl

/-- If no key of `ks` (at a position that survives the zip) equals `k`,
the zipped pair list writes nothing for `k`. -/
theorem lastVal_zip_of_forall_ne (ks : List α) (vs : List β) (k : α)
    (h : ∀ i, (hi : i < ks.length) → i < vs.length → ks[i] ≠ k) :
    lastVal? (ks.zip vs) k = none := by
  induction ks generalizing vs with
  | nil => rfl
  | cons a ks' ih =>
    cases vs with
    | nil => rfl
    | cons b vs' =>
      rw [show (a :: ks').zip (b :: vs') = (a, b) :: ks'.zip vs' from rfl, lastVal_cons]
      rw [ih vs' (fun i hi hiv => by
        simpa using h (i + 1) (by simpa using Nat.succ_lt_succ hi)
          (by simpa using Nat.succ_lt_succ hiv))]
      have ha : a ≠ k := by simpa using h 0 (by simp) (by simp)
      simp [ha]

/-- Looking up the `i`-th key of a zip with pairwise-distinct keys returns
the `i`-th value. -/
theorem lastVal_zip_get (ks : List α) (vs : List β) (hnd : ks.Nodup) (i : Nat)
    (hik : i < ks.length) (hiv : i < vs.length) :
    lastVal? (ks.zip vs) ks[i] = some vs[i] := by
  induction ks generalizing vs i with
  | nil => exact absurd hik (by simp)
  | cons a ks' ih =>
    cases vs with
    | nil => exact absurd hiv (by simp)
    | cons b vs' =>
      rcases List.nodup_cons.mp hnd with ⟨hna, hnd'⟩
      cases i with
      | zero =>
        rw [show (a :: ks').zip (b :: vs') = (a, b) :: ks'.zip vs' from rfl, lastVal_cons]
        simp only [List.getElem_cons_zero]
        rw [lastVal_zip_of_forall_ne ks' vs' a
          (fun j hj _ => fun hc => hna (hc ▸ List.getElem_mem hj))]
        simp
      | succ i' =>
        have hik' : i' < ks'.length := Nat.lt_of_succ_lt_succ hik
        have hiv' : i' < vs'.length := Nat.lt_of_succ_lt_succ hiv
        rw [show (a :: ks').zip (b :: vs') = (a, b) :: ks'.zip vs' from rfl, lastVal_cons]
        simp only [List.getElem_cons_succ]
        rw [ih vs' hnd' i' hik' hiv']

end Dict

/-! ## ChannelAdapter: `AudioManager._adjust_channels`

A numpy `frames × channels` array is a list of rows of rationals together
with its column count (`shape[1]`); well-formedness says every row has
that length. -/

structure NDArray where
  cols : Nat
  rows : List (List ℚ)
deriving DecidableEq, Repr

/-- Every row has length `cols` (numpy arrays are rectangular). -/
def NDArray.wf (a : NDArray) : Prop := ∀ r ∈ a.rows, r.length = a.cols

instance (a : NDArray) : Decidable a.wf := by
  unfold NDArray.wf; infer_instance

/-- `AudioManager._adjust_channels(data, max_channels)` from
`src/audio_manager.py`.  `np.tile(data, (1, n))` concatenates `n` copies of
each row; `np.hstack` with a zero block appends zero columns;
`data[:, :max_channels]` truncates each row.  Python `//` raises
`ZeroDivisionError` on a zero divisor, modelled as the `.error` case. -/
def adjust_channels (data : NDArray) (max_channels : Nat) : Except String NDArray :=
  if data.cols < max_channels then
    if data.cols = 0 then .error "ZeroDivisionError"
    else
      let tile_count := max_channels / data.cols
      let tiled : NDArray :=
        ⟨data.cols * tile_count, data.rows.map fun r => (List.replicate tile_count r).flatten⟩
      if tiled.cols < max_channels then
        .ok ⟨max_channels,
          tiled.rows.map fun r => r ++ List.replicate (max_channels - tiled.cols) 0⟩
      else .ok tiled
  else if data.cols > max_channels then
    .ok ⟨max_channels, data.rows.map fun r => r.take max_channels⟩
  else .ok data

theorem length_flatten_replicate {γ : Type} (n : Nat) (l : List γ) :
    ((List.replicate n l).flatten).length = n * l.length := by
  induction n with
  | zero => simp
  | succ m ih => simp [List.replicate_succ, ih, Nat.succ_mul, Nat.add_comm]

/-! ## AudioManager: devices, volume, stop, play (`src/audio_manager.py`)

The mutable parts of `AudioManager` together with the `sounddevice`
library's single global stream become the state record `AMState`.  The
reachable outside world (current device enumeration, file existence,
decode result, teardown / PortAudio outcomes) is a `PlayEnv` parameter. -/

structure Device where
  name : String
  max_output_channels : Nat
deriving DecidableEq, Repr

inductive AudioError where
  | deviceNotFound
  | deviceNoOutput
deriving DecidableEq, Repr

/-- Modelled from the spec: `validate_device` is defined in the
repository's `validators.py`, which is not among the provided sources —
only its import and call sites are.  Spec §4.1: `validateDevice(id)` →
the AudioDevice, or fails with `DeviceNotFound` (id absent from the
current enumeration) or `DeviceNoOutput` (`maxOutputChannels == 0`). -/
def validate_device (devices : List Device) (device_id : Nat) : Except AudioError Device :=
  match devices[device_id]? with
  | none => .error .deviceNotFound
  | some d => if d.max_output_channels = 0 then .error .deviceNoOutput else .ok d

/-- The `sounddevice` global playback stream started by `sd.play`. -/
structure Stream where
  data : NDArray
  samplerate : Nat
  device : Nat
deriving DecidableEq, Repr

/-- Mutable state of `AudioManager` plus the `sounddevice` global stream
(`current_stream` here is the stream `sd.get_stream`/`sd.stop` act on). -/
structure AMState where
  current_stream : Option Stream
  output_device_id : Option Nat
  volume : ℚ
deriving DecidableEq, Repr

/-- `AudioManager.set_volume`: `self.volume = max(0.0, min(1.0, volume))`. -/
def set_volume (s : AMState) (volume : ℚ) : AMState :=
  { s with volume := max 0 (min 1 volume) }

/-- `AudioManager.stop_audio`: `sd.stop()` inside
`try ... except (OSError, RuntimeError)`.  `sd.stop` tears the global
stream down; `teardown` is the outcome of that teardown (the exception it
raises, if any).  The returned `Except` is what propagates to the caller:
a caught exception is logged and swallowed, so the error branch maps to
`.ok` with the stream gone. -/
def stop_audio (s : AMState) (teardown : Except String Unit) : AMState × Except String Unit :=
  match teardown with
  | .ok _ => ({ s with current_stream := none }, .ok ())
  | .error _ => ({ s with current_stream := none }, .ok ())

/-- `sf.read` output: a 1-D array for mono files, else `frames × channels`. -/
inductive RawAudio where
  | mono (samples : List ℚ)
  | multi (d : NDArray)
deriving DecidableEq, Repr

/-- `data.reshape(-1, 1)` applied by `play_audio` to 1-D (mono) data. -/
def reshape_mono : RawAudio → NDArray
  | .mono samples => ⟨1, samples.map fun x => [x]⟩
  | .multi d => d

/-- Outside-world inputs consumed by one `play_audio` call. -/
structure PlayEnv where
  /-- current device enumeration (`sd.query_devices`) -/
  devices : List Device
  /-- `audio_file.exists()` -/
  file_exists : Bool
  /-- `sf.read(...)` outcome: data and samplerate, or a `LibsndfileError` -/
  decode : Except String (RawAudio × Nat)
  /-- outcome of the `sd.stop()` teardown inside the nested `stop_audio` call -/
  stop_teardown : Except String Unit
  /-- outcome of `sd.play(...)` (a `PortAudioError` when `.error`) -/
  portaudio : Except String Unit

/-- How one `play_audio` call reports back (`True`/`False` return value,
refined by which guard produced the `False`). -/
inductive PlayOutcome where
  | noDeviceSelected
  | fileNotFound
  | deviceError (e : AudioError)
  | corrupted
  | portAudioFailed
  | uncaught
  | started
deriving DecidableEq, Repr

/-- Observable actions of a `play_audio` call, in execution order. -/
inductive Ev where
  | validate
  | stop
  | decode
  | start
deriving DecidableEq, Repr

/-- `AudioManager.play_audio` from `src/audio_manager.py`, lines 166-263:
guard on a selected device, guard on file existence, re-validate the
device, then inside `try`: stop the current audio, decode, reshape mono,
read the device's `max_output_channels`, adjust channels, scale by the
current volume, and start playback.  A decode failure is caught as
`AudioFileCorrupted` (→ `.corrupted`), a `PortAudioError` from `sd.play`
is caught (→ `.portAudioFailed`); a `ZeroDivisionError` escaping
`_adjust_channels` matches no `except` clause (→ `.uncaught`).  The
returned event list records the order of the externally visible steps. -/
def play_audio (env : PlayEnv) (s : AMState) : PlayOutcome × AMState × List Ev :=
  match s.output_device_id with
  | none => (.noDeviceSelected, s, [])
  | some device_id =>
    if env.file_exists = false then (.fileNotFound, s, [])
    else
      match validate_device env.devices device_id with
      | .error e => (.deviceError e, s, [.validate])
      | .ok dev =>
        let s1 := (stop_audio s env.stop_teardown).1
        match env.decode with
        | .error _ => (.corrupted, s1, [.validate, .stop, .decode])
        | .ok (raw, samplerate) =>
          let data := reshape_mono raw
          let max_channels := dev.max_output_channels
          match adjust_channels data max_channels with
          | .error _ => (.uncaught, s1, [.validate, .stop, .decode])
          | .ok adjusted =>
            let scaled : NDArray :=
              ⟨adjusted.cols, adjusted.rows.map fun r => r.map fun x => x * s.volume⟩
            match env.portaudio with
            | .error _ => (.portAudioFailed, s1, [.validate, .stop, .decode])
            | .ok _ =>
              (.started,
               { s1 with current_stream := some ⟨scaled, samplerate, device_id⟩ },
               [.validate, .stop, .decode, .start])

/-! ## Soundboard: catalog scan and hotkeys (`src/soundboard.py`) -/

/-- Result of `validate_audio_file_safe` (external `validators.py`):
a validity flag and an optional error reason. -/
structure FileInfo where
  is_valid : Bool
  error : Option String
deriving DecidableEq, Repr

/-- One file produced by `self.sounds_dir.rglob("*")`: its path, its stem
(`audio_file.stem`) and its lowercased extension (`audio_file.suffix.lower()`). -/
structure ScannedFile where
  path : String
  stem : String
  suffix : String
deriving DecidableEq, Repr

/-- Mutable state of `Soundboard`: the name→path catalog `self.sounds`,
the hotkey table `self.hotkeys`, and `self.invalid_files`. -/
structure SoundboardState where
  sounds : List (String × String)
  hotkeys : List (String × String)
  invalid_files : List (String × String)
deriving DecidableEq, Repr

/-- Body of the `for audio_file in self.sounds_dir.rglob("*")` loop in
`Soundboard._scan_sounds`: supported extension → validate; valid →
`self.sounds[stem] = path`; invalid → append `(path, error or "Unknown
error")` to `self.invalid_files`.  `supported` is the injected
`SUPPORTED_FORMATS` allowlist and `validate` the external
`validate_audio_file_safe`, both from `validators.py` (not in src). -/
def scan_step (supported : List String) (validate : ScannedFile → FileInfo)
    (acc : SoundboardState) (f : ScannedFile) : SoundboardState :=
  if supported.contains f.suffix then
    let info := validate f
    if info.is_valid then { acc with sounds := dictInsert acc.sounds f.stem f.path }
    else { acc with invalid_files := acc.invalid_files ++ [(f.path, info.error.getD "Unknown error")] }
  else acc

/-- `Soundboard._scan_sounds`: early return when the directory is
missing; otherwise reset `self.invalid_files = []` and run the scan loop
over the walked files (in walk order) against the live state. -/
def scan_sounds (supported : List String) (validate : ScannedFile → FileInfo)
    (dir_exists : Bool) (files : List ScannedFile) (s : SoundboardState) : SoundboardState :=
  if dir_exists then
    files.foldl (scan_step supported validate) { s with invalid_files := [] }
  else s

/-- `[f"<f{i}>" for i in range(1, 11)]`. -/
def function_keys : List String :=
  (List.range 10).map fun i => "<f" ++ toString (i + 1) ++ ">"

/-- The `idx`-th default function-key combo. -/
def functionKey (i : Nat) : String := "<f" ++ toString (i + 1) ++ ">"

/-- Lexicographic comparison of code-point sequences: the order CPython
uses to compare `str` values. -/
def charsLe : List Char → List Char → Bool
  | [], _ => true
  | _ :: _, [] => false
  | a :: as, b :: bs =>
    if a.toNat < b.toNat then true
    else if b.toNat < a.toNat then false
    else charsLe as bs

/-- Python `s1 <= s2` on strings. -/
def strLe (a b : String) : Bool := charsLe a.data b.data

/-- `sorted(self.sounds.keys())`: Python `sorted` on `str` sorts by the
lexicographic code-point order `strLe`. -/
def sortedSoundNames (s : SoundboardState) : List String :=
  List.insertionSort (fun a b => strLe a b = true) (s.sounds.map Prod.fst)

/-- `Soundboard.setup_default_hotkeys`: sort the catalog's names, then
`self.hotkeys[function_keys[idx]] = sound_name` for the first ten names
(`enumerate(sound_names[:10])` pairs each of those names with its
function key, exactly the zip below). -/
def setup_default_hotkeys (s : SoundboardState) : SoundboardState :=
  { s with
    hotkeys := (function_keys.zip ((sortedSoundNames s).take 10)).foldl
      (fun h p => dictInsert h p.1 p.2) s.hotkeys }

/-- `Soundboard.set_hotkey`: `False` and no mutation when `sound_name not
in self.sounds`; otherwise `self.hotkeys[key] = sound_name` and `True`. -/
def set_hotkey (s : SoundboardState) (key : String) (sound_name : String) :
    Bool × SoundboardState :=
  if dictContains s.sounds sound_name = false then (false, s)
  else (true, { s with hotkeys := dictInsert s.hotkeys key sound_name })

/-! ## Helper lemmas -/

theorem function_keys_length : function_keys.length = 10 := by decide

theorem function_keys_nodup : function_keys.Nodup := by decide

theorem functionKey_injOn : ∀ i, i < 10 → ∀ j, j < 10 →
    functionKey i = functionKey j → i = j := by decide

theorem function_keys_getElem (i : Nat) (hi : i < function_keys.length) :
    function_keys[i] = functionKey i := by
  have hi' : i < (List.range 10).length := by
    simpa [function_keys] using hi
  simp only [function_keys, functionKey, List.getElem_map, List.getElem_range]

theorem scan_foldl_hotkeys (supported : List String) (validate : ScannedFile → FileInfo)
    (files : List ScannedFile) (acc : SoundboardState) :
    (files.foldl (scan_step supported validate) acc).hotkeys = acc.hotkeys := by
  induction files generalizing acc with
  | nil => rfl
  | cons f fs ih =>
    rw [List.foldl_cons, ih]
    simp only [scan_step]
    split_ifs <;> rfl

theorem scan_foldl_sounds (supported : List String) (validate : ScannedFile → FileInfo)
    (files : List ScannedFile) (acc : SoundboardState) :
    (files.foldl (scan_step supported validate) acc).sounds =
      (files.filter fun f => supported.contains f.suffix && (validate f).is_valid).foldl
        (fun d f => dictInsert d f.stem f.path) acc.sounds := by
  induction files generalizing acc with
  | nil => rfl
  | cons f fs ih =>
    rw [List.foldl_cons, ih, List.filter_cons]
    by_cases hs : f.suffix ∈ supported
    · by_cases hv : (validate f).is_valid = true
      · rw [if_pos (by simp [hs, hv]), List.foldl_cons]
        congr 1
        simp [scan_step, hs, hv]
      · rw [if_neg (by simp [hs, hv])]
        congr 1
        simp [scan_step, hs, hv]
    · rw [if_neg (by simp [hs])]
      congr 1
      simp [scan_step, hs]

theorem scan_foldl_invalid (supported : List String) (validate : ScannedFile → FileInfo)
    (files : List ScannedFile) (acc : SoundboardState) :
    (files.foldl (scan_step supported validate) acc).invalid_files =
      acc.invalid_files ++
        ((files.filter fun f => supported.contains f.suffix && !(validate f).is_valid).map
          fun f => (f.path, (validate f).error.getD "Unknown error")) := by
  induction files generalizing acc with
  | nil => simp
  | cons f fs ih =>
    rw [List.foldl_cons, ih, List.filter_cons]
    by_cases hs : f.suffix ∈ supported
    · by_cases hv : (validate f).is_valid = true
      · rw [if_neg (by simp [hs, hv])]
        congr 1
        simp [scan_step, hs, hv]
      · rw [if_pos (by simp [hs, hv]), List.map_cons]
        rw [show (scan_step supported validate acc f).invalid_files =
          acc.invalid_files ++ [(f.path, (validate f).error.getD "Unknown error")] by
            simp [scan_step, hs, hv]]
        simp
    · rw [if_neg (by simp [hs])]
      congr 1
      simp [scan_step, hs]

/-! ## Claim theorems -/

/-- C6: `stop` is idempotent and total: for every state, including when no
session is active, calling `stop` transitions any active session to Idle
(the global stream is gone), every teardown failure raised by the stream
teardown is swallowed and never propagated to the caller (the propagated
outcome is always `.ok`), and the rest of the state is untouched. -/
theorem stop_audio_spec (s : AMState) (t t' : Except String Unit) :
    (stop_audio s t).2 = .ok () ∧
    (stop_audio s t).1.current_stream = none ∧
    (stop_audio s t).1.output_device_id = s.output_device_id ∧
    (stop_audio s t).1.volume = s.volume ∧
    (stop_audio (stop_audio s t).1 t').1 = (stop_audio s t).1 := by
  cases t <;> cases t' <;> simp [stop_audio]

/-- C7: `set_volume v` stores exactly the clamp of `v` to `[0, 1]`:
`0` below the interval, `1` above it, `v` inside it; in particular
`set_volume (-5)` stores `0`, `set_volume 5` stores `1` and
`set_volume (1/2)` stores `1/2`. -/
theorem set_volume_clamps (s : AMState) (v : ℚ) :
    ((set_volume s v).volume = if v < 0 then 0 else if 1 < v then 1 else v) ∧
    (set_volume s (-5)).volume = 0 ∧
    (set_volume s 5).volume = 1 ∧
    (set_volume s (1 / 2)).volume = 1 / 2 := by
  refine ⟨?_, by norm_num [set_volume], by norm_num [set_volume], by norm_num [set_volume]⟩
  simp only [set_volume]
  split_ifs with h1 h2
  · rw [min_eq_right (by linarith), max_eq_left (by linarith)]
  · rw [min_eq_left (by linarith), max_eq_right (by norm_num)]
  · rw [min_eq_right (by linarith), max_eq_right (by linarith)]

/-- C5: for a device id absent from the current enumeration, `play_audio`
against that id (with an existing file) fails with DeviceNotFound, leaves
the whole playback state unchanged, and neither stops nor starts a
stream. -/
theorem play_audio_device_not_found (env : PlayEnv) (s : AMState) (device_id : Nat)
    (hdev : s.output_device_id = some device_id)
    (hfile : env.file_exists = true)
    (habsent : env.devices[device_id]? = none) :
    play_audio env s = (.deviceError .deviceNotFound, s, [Ev.validate]) ∧
    Ev.stop ∉ (play_audio env s).2.2 ∧
    Ev.start ∉ (play_audio env s).2.2 := by
  have hmain : play_audio env s = (.deviceError .deviceNotFound, s, [Ev.validate]) := by
    simp [play_audio, hdev, hfile, validate_device, habsent]
  refine ⟨hmain, ?_, ?_⟩ <;> rw [hmain] <;> simp

/-- C5 witness: concrete run against an empty device enumeration. -/
theorem play_audio_device_not_found_witness :
    play_audio ⟨[], true, .error "unused", .ok (), .ok ()⟩ ⟨none, some 0, 1⟩ =
      (.deviceError .deviceNotFound, ⟨none, some 0, 1⟩, [Ev.validate]) ∧
    Ev.stop ∉ (play_audio ⟨[], true, .error "unused", .ok (), .ok ()⟩ ⟨none, some 0, 1⟩).2.2 ∧
    Ev.start ∉ (play_audio ⟨[], true, .error "unused", .ok (), .ok ()⟩ ⟨none, some 0, 1⟩).2.2 :=
  play_audio_device_not_found ⟨[], true, .error "unused", .ok (), .ok ()⟩ ⟨none, some 0, 1⟩ 0
    rfl rfl rfl

/-- C2: for every rectangular frames-by-channels buffer with at least one
column and every target `T > 0`, `_adjust_channels` succeeds with a buffer
of exactly `T` columns; equal source passes through unchanged, larger
source is truncated to the first `T` columns, a divisible smaller source
is tiled `T / source` times, and a non-divisible smaller source is tiled
`⌊T / source⌋` times and padded with zero columns up to `T`. -/
theorem adjust_channels_spec (data : NDArray) (T : Nat)
    (hwf : data.wf) (hc : 1 ≤ data.cols) (hT : 0 < T) :
    ∃ out, adjust_channels data T = .ok out ∧ out.cols = T ∧ out.wf ∧
      (data.cols = T → out = data) ∧
      (T < data.cols → out.rows = data.rows.map fun r => r.take T) ∧
      (data.cols < T → data.cols ∣ T →
        out.rows = data.rows.map fun r => (List.replicate (T / data.cols) r).flatten) ∧
      (data.cols < T → ¬data.cols ∣ T →
        out.rows = data.rows.map fun r =>
          (List.replicate (T / data.cols) r).flatten ++
            List.replicate (T - data.cols * (T / data.cols)) 0) := by
  have h0 : data.cols ≠ 0 := by omega
  rcases lt_trichotomy data.cols T with hlt | heq | hgt
  · have e1 : adjust_channels data T =
        (if data.cols * (T / data.cols) < T then
          Except.ok ⟨T, (data.rows.map fun r => (List.replicate (T / data.cols) r).flatten).map
            fun r => r ++ List.replicate (T - data.cols * (T / data.cols)) 0⟩
        else Except.ok ⟨data.cols * (T / data.cols),
          data.rows.map fun r => (List.replicate (T / data.cols) r).flatten⟩) := by
      unfold adjust_channels
      rw [if_pos hlt, if_neg h0]
    by_cases hdvd : data.cols ∣ T
    · have hq : data.cols * (T / data.cols) = T := Nat.mul_div_cancel' hdvd
      rw [e1, if_neg (by omega)]
      refine ⟨_, rfl, hq, ?_, ?_, ?_, ?_, ?_⟩
      · intro r hr
        rcases List.mem_map.mp hr with ⟨r0, hr0, rfl⟩
        rw [length_flatten_replicate, hwf r0 hr0, Nat.mul_comm]
      · intro h; omega
      · intro h; omega
      · intro _ _; rfl
      · intro _ hnd; exact absurd hdvd hnd
    · have hle : data.cols * (T / data.cols) ≤ T := by
        rw [Nat.mul_comm]
        exact Nat.div_mul_le_self T data.cols
      have hne : data.cols * (T / data.cols) ≠ T := fun h => hdvd ⟨T / data.cols, h.symm⟩
      rw [e1, if_pos (by omega)]
      refine ⟨_, rfl, rfl, ?_, ?_, ?_, ?_, ?_⟩
      · intro r hr
        rcases List.mem_map.mp hr with ⟨r1, hr1, rfl⟩
        rcases List.mem_map.mp hr1 with ⟨r0, hr0, rfl⟩
        show ((List.replicate (T / data.cols) r0).flatten ++
          List.replicate (T - data.cols * (T / data.cols)) (0 : ℚ)).length = T
        rw [List.length_append, List.length_replicate, length_flatten_replicate,
          hwf r0 hr0, Nat.mul_comm (T / data.cols) data.cols]
        omega
      · intro h; omega
      · intro h; omega
      · intro _ hd; exact absurd hd hdvd
      · intro _ _
        rw [List.map_map]
        rfl
  · have e1 : adjust_channels data T = .ok data := by
      unfold adjust_channels
      rw [if_neg (by omega), if_neg (by omega)]
    rw [e1]
    exact ⟨data, rfl, heq, hwf, fun _ => rfl, fun h => by omega, fun h => by omega,
      fun h => by omega⟩
  · have e1 : adjust_channels data T =
        .ok ⟨T, data.rows.map fun r => r.take T⟩ := by
      unfold adjust_channels
      rw [if_neg (by omega), if_pos hgt]
    rw [e1]
    refine ⟨_, rfl, rfl, ?_, ?_, ?_, ?_, ?_⟩
    · intro r hr
      rcases List.mem_map.mp hr with ⟨r0, hr0, rfl⟩
      rw [List.length_take, hwf r0 hr0]
      exact inf_eq_left.mpr (by omega)
    · intro h; omega
    · intro _; rfl
    · intro h; omega
    · intro h; omega

/-- C2 witness: a 2-channel buffer adapted to 5 channels: tiled twice and
padded with one silent column. -/
theorem adjust_channels_spec_witness :
    ∃ out, adjust_channels ⟨2, [[1, 2], [3, 4]]⟩ 5 = .ok out ∧ out.cols = 5 ∧ out.wf ∧
      ((2 : Nat) = 5 → out = ⟨2, [[1, 2], [3, 4]]⟩) ∧
      (5 < 2 → out.rows = [[1, 2], [3, 4]].map fun r => r.take 5) ∧
      (2 < 5 → (2 : Nat) ∣ 5 →
        out.rows = [[1, 2], [3, 4]].map fun r => (List.replicate (5 / 2) r).flatten) ∧
      (2 < 5 → ¬(2 : Nat) ∣ 5 →
        out.rows = [[1, 2], [3, 4]].map fun r =>
          (List.replicate (5 / 2) r).flatten ++ List.replicate (5 - 2 * (5 / 2)) 0) :=
  adjust_channels_spec ⟨2, [[1, 2], [3, 4]]⟩ 5 (by decide) (by decide) (by decide)

/-- C3 counterexample: channel adaptation with target 0 on a one-column
buffer does NOT fail: it returns a zero-column buffer. -/
theorem adjust_channels_zero_target_counterexample :
    adjust_channels ⟨1, [[1], [2]]⟩ 0 = .ok ⟨0, [[], []]⟩ := by rfl

/-- C3 (amended): channel adaptation with a target of 0 does not signal an
error for any rectangular buffer; it returns a buffer with zero columns
(every row truncated to the empty row).  (Target 0 cannot reach it
downstream of a validated device, which rejects `maxOutputChannels == 0`.) -/
theorem adjust_channels_zero_target (data : NDArray) (hwf : data.wf) :
    ∃ out, adjust_channels data 0 = .ok out ∧ out.cols = 0 ∧ out.wf ∧
      out.rows = data.rows.map fun r => r.take 0 := by
  by_cases h0 : data.cols = 0
  · refine ⟨data, ?_, h0, hwf, ?_⟩
    · unfold adjust_channels
      rw [if_neg (by omega), if_neg (by omega)]
    · refine ((List.map_congr_left fun r hr => ?_).trans (List.map_id data.rows)).symm
      have hr0 : r = [] := List.length_eq_zero.mp (by rw [hwf r hr, h0])
      simp [hr0]
  · refine ⟨⟨0, data.rows.map fun r => r.take 0⟩, ?_, rfl, ?_, rfl⟩
    · unfold adjust_channels
      rw [if_neg (by omega), if_pos (by omega)]
    · intro r hr
      rcases List.mem_map.mp hr with ⟨r0, _, rfl⟩
      simp

/-- C3 witness: the amended statement evaluated on a concrete 2-column buffer. -/
theorem adjust_channels_zero_target_witness :
    ∃ out, adjust_channels ⟨2, [[1, 2]]⟩ 0 = .ok out ∧ out.cols = 0 ∧ out.wf ∧
      out.rows = [[1, 2]].map fun r => r.take 0 :=
  adjust_channels_zero_target ⟨2, [[1, 2]]⟩ (by decide)

/-- C4 counterexample: with a session playing and a file that fails to
decode, `play_audio` reports the decode failure AFTER having validated the
device and stopped the existing session — the trace is
validate, stop, decode, and the previously playing stream is gone,
contradicting "a play call whose file fails to decode leaves that existing
session unstopped". -/
theorem play_audio_order_counterexample :
    (play_audio ⟨[⟨"dev", 2⟩], true, .error "decode failed", .ok (), .ok ()⟩
        ⟨some ⟨⟨1, [[1]]⟩, 44100, 0⟩, some 0, 1⟩) =
      (.corrupted, ⟨none, some 0, 1⟩, [Ev.validate, Ev.stop, Ev.decode]) ∧
    (⟨some ⟨⟨1, [[1]]⟩, 44100, 0⟩, some 0, 1⟩ : AMState).current_stream.isSome = true ∧
    (play_audio ⟨[⟨"dev", 2⟩], true, .error "decode failed", .ok (), .ok ()⟩
        ⟨some ⟨⟨1, [[1]]⟩, 44100, 0⟩, some 0, 1⟩).2.1.current_stream = none := by
  refine ⟨rfl, rfl, rfl⟩

/-- C4 (amended): `play_audio` performs its steps in the order: validate
the device first (propagating DeviceNotFound / DeviceNoOutput), then stop
any existing session, and only then decode the file (failing with
AudioFileCorrupted on decode error); the event trace of every call is a
prefix-selection `take k` of [validate, stop, decode, start], and a play
call whose file fails to decode leaves the previously playing session
already stopped. -/
theorem play_audio_order (env : PlayEnv) (s : AMState) :
    (∃ k, (play_audio env s).2.2 = [Ev.validate, Ev.stop, Ev.decode, Ev.start].take k) ∧
    (∀ device_id d msg, s.output_device_id = some device_id → env.file_exists = true →
      validate_device env.devices device_id = .ok d → env.decode = .error msg →
      play_audio env s =
        (.corrupted, { s with current_stream := none }, [Ev.validate, Ev.stop, Ev.decode])) := by
  constructor
  · rcases s with ⟨cs, odi, vol⟩
    rcases env with ⟨devices, fe, dec, st, pa⟩
    rcases odi with _ | device_id
    · exact ⟨0, rfl⟩
    · cases fe with
      | false => exact ⟨0, rfl⟩
      | true =>
        cases hv : validate_device devices device_id with
        | error e => exact ⟨1, by simp [play_audio, hv]⟩
        | ok dev =>
          cases hst : st with
          | error e =>
            cases dec with
            | error e2 => exact ⟨3, by simp [play_audio, hv]⟩
            | ok pr =>
              rcases pr with ⟨raw, sr⟩
              cases hadj : adjust_channels (reshape_mono raw) dev.max_output_channels with
              | error e2 => exact ⟨3, by simp [play_audio, hv, hadj]⟩
              | ok adjusted =>
                cases pa with
                | error e2 => exact ⟨3, by simp [play_audio, hv, hadj]⟩
                | ok u => exact ⟨4, by simp [play_audio, hv, hadj]⟩
          | ok u =>
            cases dec with
            | error e2 => exact ⟨3, by simp [play_audio, hv]⟩
            | ok pr =>
              rcases pr with ⟨raw, sr⟩
              cases hadj : adjust_channels (reshape_mono raw) dev.max_output_channels with
              | error e2 => exact ⟨3, by simp [play_audio, hv, hadj]⟩
              | ok adjusted =>
                cases pa with
                | error e2 => exact ⟨3, by simp [play_audio, hv, hadj]⟩
                | ok u2 => exact ⟨4, by simp [play_audio, hv, hadj]⟩
  · intro device_id d msg hdev hf hval hdec
    cases hst : env.stop_teardown with
    | ok u => simp [play_audio, hdev, hf, hval, hdec, stop_audio, hst]
    | error e => simp [play_audio, hdev, hf, hval, hdec, stop_audio, hst]

/-- C4 witness: a concrete decode-failure run, produced by the amended
ordering theorem. -/
theorem play_audio_order_witness :
    play_audio ⟨[⟨"d", 2⟩], true, .error "bad file", .ok (), .ok ()⟩
        ⟨some ⟨⟨1, [[1]]⟩, 48000, 0⟩, some 0, 1⟩ =
      (.corrupted, ⟨none, some 0, 1⟩, [Ev.validate, Ev.stop, Ev.decode]) :=
  (play_audio_order ⟨[⟨"d", 2⟩], true, .error "bad file", .ok (), .ok ()⟩
    ⟨some ⟨⟨1, [[1]]⟩, 48000, 0⟩, some 0, 1⟩).2 0 ⟨"d", 2⟩ "bad file" rfl rfl rfl rfl

/-- C8: `setup_default_hotkeys` binds the `i`-th function key (0-based
`functionKey i` = F(i+1)) to the `i`-th catalog name in lexicographic
order, for every `i` below both the number of sounds and 10; function
keys at positions at or beyond the number of sounds receive no binding
from the call (their lookup is unchanged). -/
theorem setup_default_hotkeys_spec (s : SoundboardState) :
    (∀ i, i < (sortedSoundNames s).length → i < 10 →
      dictGet? (setup_default_hotkeys s).hotkeys (functionKey i) = (sortedSoundNames s)[i]?) ∧
    (∀ j, j < 10 → (sortedSoundNames s).length ≤ j →
      dictGet? (setup_default_hotkeys s).hotkeys (functionKey j) =
        dictGet? s.hotkeys (functionKey j)) := by
  constructor
  · intro i hin hi10
    have hik : i < function_keys.length := by rw [function_keys_length]; exact hi10
    have hiv : i < ((sortedSoundNames s).take 10).length := by
      rw [List.length_take]
      exact lt_min hi10 hin
    simp only [setup_default_hotkeys]
    rw [dictGet_foldl_insert, ← function_keys_getElem i hik,
      lastVal_zip_get function_keys _ function_keys_nodup i hik hiv]
    rw [show ((sortedSoundNames s).take 10)[i] = (sortedSoundNames s)[i]
      from List.getElem_take _]
    rw [List.getElem?_eq_getElem hin]
    rfl
  · intro j hj10 hnj
    simp only [setup_default_hotkeys]
    rw [dictGet_foldl_insert,
      lastVal_zip_of_forall_ne function_keys ((sortedSoundNames s).take 10) (functionKey j)
        (fun i hik hiv => by
          rw [function_keys_getElem i hik]
          have hi10 : i < 10 := by rwa [function_keys_length] at hik
          have hin : i < (sortedSoundNames s).length := by
            rw [List.length_take] at hiv
            exact lt_of_lt_of_le hiv inf_le_right
          exact fun hc => by
            have hij := functionKey_injOn i hi10 j hj10 hc
            omega)]
    rfl

/-- C8 witness: over the catalog `beta, alpha, gamma` (insertion order),
the defaults bind F1→alpha, F2→beta, F3→gamma and leave F4 unbound. -/
theorem setup_default_hotkeys_spec_witness :
    dictGet? (setup_default_hotkeys
      ⟨[("beta", "b.wav"), ("alpha", "a.wav"), ("gamma", "g.wav")], [], []⟩).hotkeys
      "<f1>" = some "alpha" ∧
    dictGet? (setup_default_hotkeys
      ⟨[("beta", "b.wav"), ("alpha", "a.wav"), ("gamma", "g.wav")], [], []⟩).hotkeys
      "<f2>" = some "beta" ∧
    dictGet? (setup_default_hotkeys
      ⟨[("beta", "b.wav"), ("alpha", "a.wav"), ("gamma", "g.wav")], [], []⟩).hotkeys
      "<f3>" = some "gamma" ∧
    dictGet? (setup_default_hotkeys
      ⟨[("beta", "b.wav"), ("alpha", "a.wav"), ("gamma", "g.wav")], [], []⟩).hotkeys
      "<f4>" = none := by
  refine ⟨?_, ?_, ?_, ?_⟩
  · exact ((setup_default_hotkeys_spec
      ⟨[("beta", "b.wav"), ("alpha", "a.wav"), ("gamma", "g.wav")], [], []⟩).1 0
        (by decide) (by decide)).trans (by decide)
  · exact ((setup_default_hotkeys_spec
      ⟨[("beta", "b.wav"), ("alpha", "a.wav"), ("gamma", "g.wav")], [], []⟩).1 1
        (by decide) (by decide)).trans (by decide)
  · exact ((setup_default_hotkeys_spec
      ⟨[("beta", "b.wav"), ("alpha", "a.wav"), ("gamma", "g.wav")], [], []⟩).1 2
        (by decide) (by decide)).trans (by decide)
  · exact ((setup_default_hotkeys_spec
      ⟨[("beta", "b.wav"), ("alpha", "a.wav"), ("gamma", "g.wav")], [], []⟩).2 3
        (by decide) (by decide)).trans (by decide)

/-- C9: `set_hotkey` fails and mutates nothing when the sound name is
absent from the catalog; when present it succeeds, binds the key to the
name (overwriting any previous binding for that key) and leaves every
other key's binding, the catalog and the invalid list unchanged. -/
theorem set_hotkey_spec (s : SoundboardState) (key sound_name : String) :
    (dictContains s.sounds sound_name = false →
      set_hotkey s key sound_name = (false, s)) ∧
    (dictContains s.sounds sound_name = true →
      (set_hotkey s key sound_name).1 = true ∧
      (set_hotkey s key sound_name).2.sounds = s.sounds ∧
      (set_hotkey s key sound_name).2.invalid_files = s.invalid_files ∧
      dictGet? (set_hotkey s key sound_name).2.hotkeys key = some sound_name ∧
      ∀ k', k' ≠ key →
        dictGet? (set_hotkey s key sound_name).2.hotkeys k' = dictGet? s.hotkeys k') := by
  constructor
  · intro h
    simp [set_hotkey, h]
  · intro h
    refine ⟨by simp [set_hotkey, h], by simp [set_hotkey, h], by simp [set_hotkey, h],
      ?_, ?_⟩
    · simp [set_hotkey, h, dictGet_dictInsert]
    · intro k' hk'
      simp [set_hotkey, h, dictGet_dictInsert, hk']

/-- C9 witness: binding F1 to a missing sound fails and preserves the
prior F1 binding; binding it to a present sound succeeds. -/
theorem set_hotkey_spec_witness :
    set_hotkey ⟨[("kick", "k.wav")], [("<f1>", "kick")], []⟩ "<f1>" "missing" =
      (false, ⟨[("kick", "k.wav")], [("<f1>", "kick")], []⟩) ∧
    dictGet? (set_hotkey ⟨[("kick", "k.wav")], [("<f1>", "boom")], []⟩ "<f1>"
      "kick").2.hotkeys "<f1>" = some "kick" := by
  constructor
  · exact (set_hotkey_spec ⟨[("kick", "k.wav")], [("<f1>", "kick")], []⟩ "<f1>"
      "missing").1 (by decide)
  · exact ((set_hotkey_spec ⟨[("kick", "k.wav")], [("<f1>", "boom")], []⟩ "<f1>"
      "kick").2 (by decide)).2.2.2.1

/-- C10: `setup_default_hotkeys` writes only the function keys at
positions below both the sound count and 10; the binding of every other
key — including function keys beyond the sound count — and the rest of
the state are left exactly as they were. -/
theorem setup_default_hotkeys_frame (s : SoundboardState) (k : String)
    (hk : ∀ i, i < (sortedSoundNames s).length → i < 10 → k ≠ functionKey i) :
    dictGet? (setup_default_hotkeys s).hotkeys k = dictGet? s.hotkeys k ∧
    (setup_default_hotkeys s).sounds = s.sounds ∧
    (setup_default_hotkeys s).invalid_files = s.invalid_files := by
  refine ⟨?_, rfl, rfl⟩
  simp only [setup_default_hotkeys]
  rw [dictGet_foldl_insert,
    lastVal_zip_of_forall_ne function_keys ((sortedSoundNames s).take 10) k
      (fun i hik hiv => by
        rw [function_keys_getElem i hik]
        have hi10 : i < 10 := by rwa [function_keys_length] at hik
        have hin : i < (sortedSoundNames s).length := by
          rw [List.length_take] at hiv
          exact lt_of_lt_of_le hiv inf_le_right
        exact fun hc => hk i hin hi10 hc.symm)]
  rfl

/-- C10 witness: with one sound, a custom combo binding and a prior F5
binding both survive `setup_default_hotkeys` untouched. -/
theorem setup_default_hotkeys_frame_witness :
    dictGet? (setup_default_hotkeys
      ⟨[("boom", "boom.wav")], [("<ctrl>+a", "boom"), ("<f5>", "boom")], []⟩).hotkeys
      "<ctrl>+a" =
      dictGet? ([("<ctrl>+a", "boom"), ("<f5>", "boom")]) "<ctrl>+a" ∧
    dictGet? (setup_default_hotkeys
      ⟨[("boom", "boom.wav")], [("<ctrl>+a", "boom"), ("<f5>", "boom")], []⟩).hotkeys
      "<f5>" =
      dictGet? ([("<ctrl>+a", "boom"), ("<f5>", "boom")]) "<f5>" := by
  constructor
  · exact (setup_default_hotkeys_frame
      ⟨[("boom", "boom.wav")], [("<ctrl>+a", "boom"), ("<f5>", "boom")], []⟩ "<ctrl>+a"
      (fun i hin _ => by
        have hl : (sortedSoundNames
          ⟨[("boom", "boom.wav")], [("<ctrl>+a", "boom"), ("<f5>", "boom")], []⟩).length = 1 :=
          by decide
        rw [hl] at hin
        have : i = 0 := by omega
        subst this
        decide)).1
  · exact (setup_default_hotkeys_frame
      ⟨[("boom", "boom.wav")], [("<ctrl>+a", "boom"), ("<f5>", "boom")], []⟩ "<f5>"
      (fun i hin _ => by
        have hl : (sortedSoundNames
          ⟨[("boom", "boom.wav")], [("<ctrl>+a", "boom"), ("<f5>", "boom")], []⟩).length = 1 :=
          by decide
        rw [hl] at hin
        have : i = 0 := by omega
        subst this
        decide)).1

/-- A key present before any sequence of stem/path insertions is still
present afterwards: scanning never removes a catalog entry. -/
theorem dictGet_foldl_stem_isSome (fs : List ScannedFile) (d : List (String × String))
    (name : String) (h : (dictGet? d name).isSome) :
    (dictGet? (fs.foldl (fun d f => dictInsert d f.stem f.path) d) name).isSome := by
  induction fs generalizing d with
  | nil => exact h
  | cons f fs ih =>
    rw [List.foldl_cons]
    apply ih
    rw [dictGet_dictInsert]
    by_cases hc : name = f.stem
    · simp [hc]
    · simpa [hc] using h

/-- C1 counterexample: rescanning a directory that has become empty keeps
the stale entry of the earlier scan in the mapping, so the mapping after
the scan is not "exactly the stems of the valid matching files currently
under D" (which would be the empty mapping here). -/
theorem scan_sounds_replacement_counterexample :
    (scan_sounds [".wav"] (fun _ => ⟨true, none⟩) true []
      ⟨[("old", "sounds/old.wav")], [], []⟩).sounds = [("old", "sounds/old.wav")] ∧
    [(("old", "sounds/old.wav") : String × String)] ≠ [] := by
  exact ⟨rfl, by decide⟩

/-- C1 (amended): a rescan of an existing directory fully replaces the
invalid-file list (reset, then rebuilt as exactly the current invalid
matching files in walk order), but updates the name→path mapping in
place on top of its previous contents: current valid matching files are
inserted/overwritten stem by stem, and every entry already present —
including entries from earlier scans whose files are gone — survives as
a key.  The hotkey table is untouched. -/
theorem scan_sounds_spec (supported : List String) (validate : ScannedFile → FileInfo)
    (files : List ScannedFile) (s : SoundboardState) :
    (scan_sounds supported validate true files s).invalid_files =
      ((files.filter fun f => supported.contains f.suffix && !(validate f).is_valid).map
        fun f => (f.path, (validate f).error.getD "Unknown error")) ∧
    (scan_sounds supported validate true files s).sounds =
      (files.filter fun f => supported.contains f.suffix && (validate f).is_valid).foldl
        (fun d f => dictInsert d f.stem f.path) s.sounds ∧
    (∀ name, (dictGet? s.sounds name).isSome →
      (dictGet? (scan_sounds supported validate true files s).sounds name).isSome) ∧
    (scan_sounds supported validate true files s).hotkeys = s.hotkeys := by
  have hu : scan_sounds supported validate true files s =
      files.foldl (scan_step supported validate) { s with invalid_files := [] } := rfl
  refine ⟨?_, ?_, ?_, ?_⟩
  · rw [hu, scan_foldl_invalid]
    simp
  · rw [hu, scan_foldl_sounds]
  · intro name hname
    rw [hu, scan_foldl_sounds]
    exact dictGet_foldl_stem_isSome _ _ _ hname
  · rw [hu, scan_foldl_hotkeys]

/-- C1 witness: scanning a directory with a valid `kick.wav`, a corrupt
`snare.wav` and an unsupported `readme.txt` over a state holding a stale
`old` entry: the invalid list is exactly the snare entry, the stale key
survives, the new stem is present, and hotkeys are untouched. -/
theorem scan_sounds_spec_witness :
    (scan_sounds [".wav"]
      (fun f => if f.stem = "snare" then ⟨false, some "corrupt"⟩ else ⟨true, none⟩) true
      [⟨"D/kick.wav", "kick", ".wav"⟩, ⟨"D/snare.wav", "snare", ".wav"⟩,
        ⟨"D/readme.txt", "readme", ".txt"⟩]
      ⟨[("old", "D/old.wav")], [("<f1>", "old")], [("junk", "stale reason")]⟩).invalid_files =
      [("D/snare.wav", "corrupt")] ∧
    (dictGet? (scan_sounds [".wav"]
      (fun f => if f.stem = "snare" then ⟨false, some "corrupt"⟩ else ⟨true, none⟩) true
      [⟨"D/kick.wav", "kick", ".wav"⟩, ⟨"D/snare.wav", "snare", ".wav"⟩,
        ⟨"D/readme.txt", "readme", ".txt"⟩]
      ⟨[("old", "D/old.wav")], [("<f1>", "old")], [("junk", "stale reason")]⟩).sounds
      "old").isSome ∧
    (scan_sounds [".wav"]
      (fun f => if f.stem = "snare" then ⟨false, some "corrupt"⟩ else ⟨true, none⟩) true
      [⟨"D/kick.wav", "kick", ".wav"⟩, ⟨"D/snare.wav", "snare", ".wav"⟩,
        ⟨"D/readme.txt", "readme", ".txt"⟩]
      ⟨[("old", "D/old.wav")], [("<f1>", "old")], [("junk", "stale reason")]⟩).hotkeys =
      [("<f1>", "old")] := by
  refine ⟨?_, ?_, ?_⟩
  · exact (scan_sounds_spec [".wav"]
      (fun f => if f.stem = "snare" then ⟨false, some "corrupt"⟩ else ⟨true, none⟩)
      [⟨"D/kick.wav", "kick", ".wav"⟩, ⟨"D/snare.wav", "snare", ".wav"⟩,
        ⟨"D/readme.txt", "readme", ".txt"⟩]
      ⟨[("old", "D/old.wav")], [("<f1>", "old")], [("junk", "stale reason")]⟩).1.trans
      (by decide)
  · exact (scan_sounds_spec [".wav"]
      (fun f => if f.stem = "snare" then ⟨false, some "corrupt"⟩ else ⟨true, none⟩)
      [⟨"D/kick.wav", "kick", ".wav"⟩, ⟨"D/snare.wav", "snare", ".wav"⟩,
        ⟨"D/readme.txt", "readme", ".txt"⟩]
      ⟨[("old", "D/old.wav")], [("<f1>", "old")], [("junk", "stale reason")]⟩).2.2.1
      "old" (by decide)
  · exact (scan_sounds_spec [".wav"]
      (fun f => if f.stem = "snare" then ⟨false, some "corrupt"⟩ else ⟨true, none⟩)
      [⟨"D/kick.wav", "kick", ".wav"⟩, ⟨"D/snare.wav", "snare", ".wav"⟩,
        ⟨"D/readme.txt", "readme", ".txt"⟩]
      ⟨[("old", "D/old.wav")], [("<f1>", "old")], [("junk", "stale reason")]⟩).2.2.2
